import Mathlib

/-!
Embedding of the incremental memoization core of fbuild
(src/lib/fbuild/db/__init__.py): the backend tables, the file probe,
prepare and cache, the clear operations, the save and load dance, the
frontend call decision, and the stack walk that registers external
dependencies.  Bound arguments and results are arbitrary types with
decidable equality; file digests are modeled by an injective stand-in
for md5 (the system only ever compares digests for equality); wall
clock times and mtimes are rationals.  Python dictionaries are modeled
as insertion-ordered association lists, and Python exceptions as
Except values threaded together with the mutated backend state.
-/

namespace Fbuild

/-- A Python dictionary key as used by the db tables: the tables mix string
keys (function names), integer keys (call ids) and the Python value None
(a call id that was not found). -/
inductive PyKey : Type
| s (v : String)
| n (v : Nat)
| pynone
deriving DecidableEq, Repr

/-- The dictionary key corresponding to a call id value (an int or None). -/
def PyKey.ofCallId : Option Nat → PyKey
| Option.none => PyKey.pynone
| some i => PyKey.n i

section Dict

variable {α γ : Type} [DecidableEq α]

/-- Python dict lookup: d[k], as an Option. -/
def dictFind : List (α × γ) → α → Option γ
| [], _ => Option.none
| (k, v) :: rest, key => if key = k then some v else dictFind rest key

/-- Python dict store d[k] = v: update in place, else append (insertion
order preserved). -/
def dictSet : List (α × γ) → α → γ → List (α × γ)
| [], key, val => [(key, val)]
| (k, v) :: rest, key, val =>
    if key = k then (k, val) :: rest else (k, v) :: dictSet rest key val

/-- Python del d[k] with a KeyError ignored: drop the entry if present. -/
def dictErase : List (α × γ) → α → List (α × γ)
| [], _ => []
| (k, v) :: rest, key => if key = k then rest else (k, v) :: dictErase rest key

/-- Python d.setdefault(k, dflt) followed by an in-place update of the
returned value: the value at k becomes f of the old value, or f dflt if k
was absent. -/
def dictModify : List (α × γ) → α → γ → (γ → γ) → List (α × γ)
| [], key, dflt, f => [(key, f dflt)]
| (k, v) :: rest, key, dflt, f =>
    if key = k then (k, f v) :: rest else (k, v) :: dictModify rest key dflt f

end Dict

/-- Python set.union modeled on lists: append the members of the second
operand that are not already present. -/
def listUnion [DecidableEq α] (a b : List α) : List α :=
  b.foldl (fun acc x => if x ∈ acc then acc else acc ++ [x]) a

/-- A file digest.  The source uses md5 hexdigests; only equality of
digests is ever consulted, so digests are strings here. -/
abbrev Digest := String

/-- A file on the file system: its mtime (real seconds, modeled as a
rational) and its content. -/
structure FSFile : Type where
  mtime : ℚ
  content : String
deriving DecidableEq, Repr

/-- A snapshot of the file system, mapping filenames to files.  A missing
filename makes getmtime and digest raise OSError. -/
abbrev FS := List (String × FSFile)

/-- os.path.getmtime and open, combined: the file at a name, if any. -/
def fsFind (fs : FS) (filename : String) : Option FSFile :=
  dictFind fs filename

/-- The content digest of a file.  Stand-in for fbuild.path.Path.digest
(md5 of the content): an injective fingerprint, adequate because the
database only compares digests for equality. -/
def digestOf (content : String) : Digest := content

/-- A row of the files table: (mtime, digest), as stored by _add_file. -/
structure FileEntry : Type where
  mtime : ℚ
  digest : Digest
deriving DecidableEq, Repr

/-- The six persisted tables owned by DatabaseBackend.  call_files is
keyed filename, then two PyKey levels: the declared-src path stores
call_files[filename][function_name][call_id] while the external path
stores call_files[filename][call_id][function_name] (see the argument
order at the call sites of _update_external_files and
_check_external_files).  The external tables receive int keys at the
top level for the same reason. -/
structure DBState (β ρ : Type) : Type where
  functions : List (String × Digest)
  function_calls : List (String × List (β × ρ))
  files : List (String × FileEntry)
  call_files : List (String × List (PyKey × List (PyKey × Digest)))
  external_srcs : List (PyKey × List (PyKey × List String))
  external_dsts : List (PyKey × List (PyKey × List String))
deriving DecidableEq, Repr

/-- The backend right after construction: all six tables empty. -/
def dbEmpty (β ρ : Type) : DBState β ρ := ⟨[], [], [], [], [], []⟩

section Backend

variable {β ρ : Type} [DecidableEq β]

/-- DatabaseBackend.clear_file: remove the file from files and remove all
of the related call files; returns whether anything existed. -/
def clear_file (st : DBState β ρ) (filename : String) : Bool × DBState β ρ :=
  let e1 := (dictFind st.files filename).isSome
  let e2 := (dictFind st.call_files filename).isSome
  (e1 || e2,
   { st with files := dictErase st.files filename,
             call_files := dictErase st.call_files filename })

/-- The result of one file probe: whether the content differs from the
table, the entry the probe returned, and (instrumentation for the spec
phrase "without rehashing") whether Path.digest was evaluated. -/
structure ProbeRes : Type where
  changed : Bool
  entry : FileEntry
  rehashed : Bool
deriving DecidableEq, Repr

/-- DatabaseBackend._add_file: insert or update the file information.
getmtime on a missing file raises OSError (the error case).  On first
sight, store (mtime, digest) and report changed.  On re-sight with equal
mtime and the wall clock strictly more than 1.0 seconds past it, keep
the row.  Otherwise rehash: equal digest refreshes the stored mtime and
reports unchanged (returning the old row, as the source does); a
different digest clears the file and stores the new row, reporting
changed. -/
def add_file (fs : FS) (now : ℚ) (st : DBState β ρ) (filename : String) :
    Except Unit ProbeRes × DBState β ρ :=
  match fsFind fs filename with
  | Option.none => (Except.error (), st)
  | some file =>
    let mtime := file.mtime
    match dictFind st.files filename with
    | Option.none =>
        let entry : FileEntry := ⟨mtime, digestOf file.content⟩
        (Except.ok ⟨true, entry, true⟩,
         { st with files := dictSet st.files filename entry })
    | some old =>
        if mtime = old.mtime ∧ now - mtime > 1 then
          (Except.ok ⟨false, old, false⟩, st)
        else
          let digest := digestOf file.content
          if digest = old.digest then
            (Except.ok ⟨false, old, true⟩,
             { st with files := dictSet st.files filename ⟨mtime, old.digest⟩ })
          else
            let st1 := (clear_file st filename).2
            let entry : FileEntry := ⟨mtime, digest⟩
            (Except.ok ⟨true, entry, true⟩,
             { st1 with files := dictSet st1.files filename entry })

/-- DatabaseBackend._check_call_file: probe the file, then report dirty
when the call id is None, when no record exists for this
(filename, function_name, call_id), or when the stored digest differs;
otherwise report the probe result.  The two key arguments are passed
through to the call_files lookup exactly as given. -/
def check_call_file (fs : FS) (now : ℚ) (st : DBState β ρ)
    (call_id function_name : PyKey) (filename : String) :
    Except Unit (Bool × Digest) × DBState β ρ :=
  match add_file fs now st filename with
  | (Except.error e, st1) => (Except.error e, st1)
  | (Except.ok pr, st1) =>
    let digest := pr.entry.digest
    if call_id = PyKey.pynone then (Except.ok (true, digest), st1)
    else
      match dictFind st1.call_files filename with
      | Option.none => (Except.ok (true, digest), st1)
      | some datas =>
        match Option.bind (dictFind datas function_name)
            (fun m => dictFind m call_id) with
        | Option.none => (Except.ok (true, digest), st1)
        | some old_digest =>
          if digest = old_digest then (Except.ok (pr.changed, digest), st1)
          else (Except.ok (true, digest), st1)

/-- The loop of DatabaseBackend._check_call_files: check each filename in
turn, collecting the dirty ones; an OSError from a probe propagates (this
loop has no handler), abandoning the rest but keeping the state mutated
so far. -/
def check_call_files_loop (fs : FS) (now : ℚ) (call_id function_name : PyKey) :
    List String → DBState β ρ → List (String × Digest) →
    Except Unit (List (String × Digest)) × DBState β ρ
| [], st, acc => (Except.ok acc, st)
| f :: rest, st, acc =>
  match check_call_file fs now st call_id function_name f with
  | (Except.error e, st1) => (Except.error e, st1)
  | (Except.ok (d, digest), st1) =>
      check_call_files_loop fs now call_id function_name rest st1
        (if d then acc ++ [(f, digest)] else acc)

/-- DatabaseBackend._check_call_files: returns all of the dirty call
files among the declared srcs. -/
def check_call_files (fs : FS) (now : ℚ) (st : DBState β ρ)
    (call_id : Option Nat) (function_name : String) (filenames : List String) :
    Except Unit (List (String × Digest)) × DBState β ρ :=
  check_call_files_loop fs now (PyKey.ofCallId call_id) (PyKey.s function_name)
    filenames st []

/-- The loop of DatabaseBackend._check_external_files: check each
previously recorded external src; an OSError from the probe is caught
and recorded as external dirtiness instead of propagating. -/
def check_external_files_loop (fs : FS) (now : ℚ) (call_id function_name : PyKey) :
    List String → DBState β ρ → Bool → List (String × Digest) →
    (Bool × List (String × Digest)) × DBState β ρ
| [], st, dirty, acc => ((dirty, acc), st)
| src :: rest, st, dirty, acc =>
  match check_call_file fs now st call_id function_name src with
  | (Except.error _, st1) =>
      check_external_files_loop fs now call_id function_name rest st1 true acc
  | (Except.ok (d, digest), st1) =>
      check_external_files_loop fs now call_id function_name rest st1 dirty
        (if d then acc ++ [(src, digest)] else acc)

/-- DatabaseBackend._check_external_files, with the parameters in the
order of its def line: (call_id, function_name).  Note that its only
caller, prepare, passes (function_name, call_id), so the actual values
arrive swapped relative to these names. -/
def check_external_files (fs : FS) (now : ℚ) (st : DBState β ρ)
    (call_id function_name : PyKey) :
    (Bool × List String × List String × List (String × Digest)) × DBState β ρ :=
  let srcs := (Option.bind (dictFind st.external_srcs function_name)
      (fun m => dictFind m call_id)).getD []
  match check_external_files_loop fs now call_id function_name srcs st false [] with
  | ((dirty, digests), st1) =>
    let dsts := (Option.bind (dictFind st1.external_dsts function_name)
        (fun m => dictFind m call_id)).getD []
    ((dirty, srcs, dsts, digests), st1)

/-- DatabaseBackend._check_function: unknown name is dirty; a known name
is clean exactly when the digest matches. -/
def check_function (st : DBState β ρ) (function_name function_digest : String) :
    Bool :=
  match dictFind st.functions function_name with
  | Option.none => true
  | some old => if function_digest = old then false else true

/-- The linear scan of DatabaseBackend._check_call: the first index whose
stored bound arguments equal the given ones, with its result. -/
def check_call_scan (bound : β) : List (β × ρ) → Nat → Option (Nat × ρ)
| [], _ => Option.none
| (b, r) :: rest, i =>
    if bound = b then some (i, r) else check_call_scan bound rest (i + 1)

/-- DatabaseBackend._check_call: the call id and cached result for these
bound arguments, or (None, None). -/
def check_call (st : DBState β ρ) (function : String) (bound : β) :
    Option Nat × Option ρ :=
  match dictFind st.function_calls function with
  | Option.none => (Option.none, Option.none)
  | some datas =>
    match check_call_scan bound datas 0 with
    | some (i, r) => (some i, some r)
    | Option.none => (Option.none, Option.none)

/-- The 8 values prepare returns (the spec calls this tuple a 7-tuple). -/
structure PrepareRes (ρ : Type) : Type where
  function_dirty : Bool
  call_id : Option Nat
  old_result : Option ρ
  call_file_digests : List (String × Digest)
  external_dirty : Bool
  external_srcs : List String
  external_dsts : List String
  external_digests : List (String × Digest)
deriving DecidableEq, Repr

/-- DatabaseBackend.prepare: queries all the information needed to cache
a function.  The declared-src probes go through _check_call_files (whose
OSError propagates); the external check is invoked with
(function_name, call_id) against a parameter list (call_id,
function_name), so those two values land swapped inside it. -/
def prepare (fs : FS) (now : ℚ) (st : DBState β ρ)
    (function_name function_digest : String) (bound : β)
    (srcs dsts : List String) :
    Except Unit (PrepareRes ρ) × DBState β ρ :=
  let function_dirty := check_function st function_name function_digest
  match check_call st function_name bound with
  | (call_id, old_result) =>
    match check_call_files fs now st call_id function_name srcs with
    | (Except.error e, st1) => (Except.error e, st1)
    | (Except.ok call_file_digests, st1) =>
      match check_external_files fs now st1 (PyKey.s function_name)
          (PyKey.ofCallId call_id) with
      | ((external_dirty, esrcs, edsts, edigests), st2) =>
        (Except.ok ⟨function_dirty, call_id, old_result, call_file_digests,
            external_dirty, esrcs, edsts, edigests⟩, st2)

/-- DatabaseBackend.clear_function: delete the name from functions,
function_calls, external_srcs and external_dsts (each del ignoring
KeyError; on the external tables the key tried is the name, a string),
then sweep call_files, deleting the name from each per-filename map and
pruning the filenames whose map became empty.  Returns whether anything
existed. -/
def clear_function (st : DBState β ρ) (name : String) : Bool × DBState β ρ :=
  let e1 := (dictFind st.functions name).isSome
  let e2 := (dictFind st.function_calls name).isSome
  let e3 := (dictFind st.external_srcs (PyKey.s name)).isSome
  let e4 := (dictFind st.external_dsts (PyKey.s name)).isSome
  let swept := st.call_files.map (fun p => (p.1, dictErase p.2 (PyKey.s name)))
  let e5 := st.call_files.any (fun p => (dictFind p.2 (PyKey.s name)).isSome)
  let e6 := swept.any (fun p => p.2.isEmpty)
  (e1 || e2 || e3 || e4 || e5 || e6,
   { st with functions := dictErase st.functions name,
             function_calls := dictErase st.function_calls name,
             external_srcs := dictErase st.external_srcs (PyKey.s name),
             external_dsts := dictErase st.external_dsts (PyKey.s name),
             call_files := swept.filter (fun p => !p.2.isEmpty) })

/-- DatabaseBackend._update_function: clear out all the related data,
then store the new digest. -/
def update_function (st : DBState β ρ) (function : String) (digest : Digest) :
    DBState β ρ :=
  let st1 := (clear_function st function).2
  { st1 with functions := dictSet st1.functions function digest }

/-- DatabaseBackend._update_call: a missing (possibly just cleared)
function gets a fresh one-element call list with id 0; call id None
appends; an existing call id overwrites in place (a stale id past the
end raises IndexError, the error case). -/
def update_call (st : DBState β ρ) (function : String) (call_id : Option Nat)
    (bound : β) (result : ρ) : Except Unit (Nat × DBState β ρ) :=
  match dictFind st.function_calls function with
  | Option.none =>
      let fc := dictSet st.function_calls function [(bound, result)]
      Except.ok (0, { st with function_calls := fc })
  | some datas =>
    match call_id with
    | Option.none =>
        let fc := dictSet st.function_calls function (datas ++ [(bound, result)])
        Except.ok (datas.length, { st with function_calls := fc })
    | some i =>
        if i < datas.length then
          let fc := dictSet st.function_calls function (datas.set i (bound, result))
          Except.ok (i, { st with function_calls := fc })
        else Except.error ()

/-- DatabaseBackend._update_call_file: upsert into the nested map, with
the two key arguments used exactly as given. -/
def update_call_file (st : DBState β ρ) (call_id function_name : PyKey)
    (filename : String) (digest : Digest) : DBState β ρ :=
  let cf := dictModify st.call_files filename []
    (fun datas => dictModify datas function_name []
      (fun m => dictSet m call_id digest))
  { st with call_files := cf }

/-- DatabaseBackend._update_call_files: upsert each recorded digest. -/
def update_call_files (st : DBState β ρ) (call_id function_name : PyKey)
    (digests : List (String × Digest)) : DBState β ρ :=
  digests.foldl (fun s p => update_call_file s call_id function_name p.1 p.2) st

/-- DatabaseBackend._update_external_files, with the parameters in the
order of its def line: (call_id, function_name, srcs, dsts, digests).
Its only caller, cache, passes (function_name, call_id, ...), so the two
key values arrive swapped relative to these names. -/
def update_external_files (st : DBState β ρ) (call_id function_name : PyKey)
    (srcs dsts : List String) (digests : List (String × Digest)) : DBState β ρ :=
  let es := dictModify st.external_srcs function_name []
    (fun m => dictSet m call_id srcs)
  let st1 := { st with external_srcs := es }
  let ed := dictModify st1.external_dsts function_name []
    (fun m => dictSet m call_id dsts)
  let st2 := { st1 with external_dsts := ed }
  digests.foldl (fun s p => update_call_file s call_id function_name p.1 p.2) st2

/-- The arguments of one DatabaseBackend.cache invocation. -/
structure CacheArgs (β ρ : Type) : Type where
  function_dirty : Bool
  function_name : String
  function_digest : String
  call_id : Option Nat
  bound : β
  result : ρ
  call_file_digests : List (String × Digest)
  external_srcs : List String
  external_dsts : List String
  external_digests : List (String × Digest)
deriving DecidableEq, Repr

/-- DatabaseBackend.cache: saves the function call into the database.
On a dirty function, first clear and re-store its digest; then insert
or update the call record (obtaining the real call id); then upsert the
declared call files under (function_name, call_id); then store the
external srcs, dsts and digests — passed as (function_name, call_id)
against the parameter list (call_id, function_name), so the external
tables and the external call files are keyed with the two swapped. -/
def cache (st : DBState β ρ) (a : CacheArgs β ρ) :
    Except Unit Unit × DBState β ρ :=
  let st1 := if a.function_dirty
    then update_function st a.function_name a.function_digest else st
  match update_call st1 a.function_name a.call_id a.bound a.result with
  | Except.error e => (Except.error e, st1)
  | Except.ok (call_id, st2) =>
    let st3 := update_call_files st2 (PyKey.n call_id)
        (PyKey.s a.function_name) a.call_file_digests
    let st4 := update_external_files st3 (PyKey.s a.function_name)
        (PyKey.n call_id) a.external_srcs a.external_dsts a.external_digests
    (Except.ok (), st4)

end Backend

section Frontend

variable {β ρ : Type} [DecidableEq β]

/-- The return-value dst filenames of a result: return_type.convert of
the value when the return annotation is a DST subclass (modeled by the
optional converter), and the empty tuple otherwise.  In Database.call
the converter is only ever applied to a value that is present. -/
def dbReturnDsts (return_conv : Option (ρ → List String)) (r : Option ρ) :
    List String :=
  match return_conv, r with
  | some c, some x => c x
  | _, _ => []

/-- What one Database.call invocation produced: the value returned
(the cached old result on a hit, the body result on a rerun), the
all_srcs and all_dsts sets returned with it, whether the user function
body ran, and (instrumentation) the arguments submitted to
backend.cache, if any. -/
structure CallOutcome (β ρ : Type) : Type where
  result : Option ρ
  all_srcs : List String
  all_dsts : List String
  ranBody : Bool
  cacheArgs : Option (CacheArgs β ρ)
deriving DecidableEq, Repr

/-- Database.call, from the prepare submission on (the callee
normalization, generator checks, digesting and argument binding above it
produce function_name, function_digest, bound, srcs, dsts and the
return-role converter, taken here as inputs).  The user function body is
modeled by its result together with the external srcs, dsts and digests
it registers through add_external_dependencies_to_call: the body runs
with external_srcs and external_dsts rebound to fresh empty sets, while
external_digests stays the list prepare returned and the body appends to
it.  An OSError escaping prepare, or an IndexError escaping cache,
propagates (the error case). -/
def dbCall (fs : FS) (now : ℚ) (st : DBState β ρ)
    (function_name function_digest : String) (bound : β)
    (srcs dsts : List String) (return_conv : Option (ρ → List String))
    (body_result : ρ) (body_srcs body_dsts : List String)
    (body_digests : List (String × Digest)) :
    Except Unit (CallOutcome β ρ) × DBState β ρ :=
  match prepare fs now st function_name function_digest bound srcs dsts with
  | (Except.error e, st1) => (Except.error e, st1)
  | (Except.ok t, st1) =>
    let return_dsts := dbReturnDsts return_conv t.old_result
    let clean := !(t.function_dirty || t.call_id.isNone ||
        !t.call_file_digests.isEmpty || !t.external_digests.isEmpty ||
        t.external_dirty) &&
      (return_dsts ++ dsts ++ t.external_dsts).all
        (fun d => (fsFind fs d).isSome)
    if clean then
      (Except.ok { result := t.old_result,
                   all_srcs := listUnion srcs t.external_srcs,
                   all_dsts := listUnion (listUnion dsts t.external_dsts)
                     return_dsts,
                   ranBody := false,
                   cacheArgs := Option.none }, st1)
    else
      let a : CacheArgs β ρ :=
        { function_dirty := t.function_dirty,
          function_name := function_name,
          function_digest := function_digest,
          call_id := t.call_id,
          bound := bound,
          result := body_result,
          call_file_digests := t.call_file_digests,
          external_srcs := body_srcs,
          external_dsts := body_dsts,
          external_digests := t.external_digests ++ body_digests }
      match cache st1 a with
      | (Except.error e, st2) => (Except.error e, st2)
      | (Except.ok _, st2) =>
        let rd := dbReturnDsts return_conv (some body_result)
        (Except.ok { result := some body_result,
                     all_srcs := listUnion srcs body_srcs,
                     all_dsts := listUnion (listUnion dsts body_dsts) rd,
                     ranBody := true,
                     cacheArgs := some a }, st2)

/-- The frame locals of an in-flight Database.call that the stack walk
of add_external_dependencies_to_call reads and mutates. -/
structure CallFrameLocals : Type where
  function_name : String
  call_id : Option Nat
  external_srcs : List String
  external_dsts : List String
  external_digests : List (String × Digest)
deriving DecidableEq, Repr

/-- A frame of the current call stack: either some unrelated frame or an
in-flight Database.call frame with its locals. -/
inductive Frame : Type
| plain
| dbcall (l : CallFrameLocals)
deriving DecidableEq, Repr

/-- The inner loop of add_external_dependencies_to_call over the given
srcs, against one matching frame: add each src to the external_srcs set
of the frame, ask the backend to check the call file under the frame
call id and function name, and append the digest to the frame
external_digests when it is dirty.  An OSError from the check (it has no
handler here) aborts the walk, keeping the mutations made so far. -/
def aed_add_srcs (fs : FS) (now : ℚ) :
    List String → DBState β ρ → CallFrameLocals →
    Except Unit Unit × CallFrameLocals × DBState β ρ
| [], st, l => (Except.ok (), l, st)
| src :: rest, st, l =>
  let es := if src ∈ l.external_srcs then l.external_srcs
            else l.external_srcs ++ [src]
  let l1 := { l with external_srcs := es }
  match check_call_file fs now st (PyKey.ofCallId l.call_id)
      (PyKey.s l.function_name) src with
  | (Except.error e, st1) => (Except.error e, l1, st1)
  | (Except.ok (dirty, digest), st1) =>
    let l2 := if dirty
      then { l1 with external_digests := l1.external_digests ++ [(src, digest)] }
      else l1
    aed_add_srcs fs now rest st1 l2

/-- The frame walk of add_external_dependencies_to_call: visit every
frame from the starting depth upward, updating each in-flight
Database.call frame; running off the top of the stack raises ValueError,
which the function catches and ignores, so the walk simply ends. -/
def aed_frames (fs : FS) (now : ℚ) (srcs dsts : List String) :
    List Frame → DBState β ρ →
    Except Unit Unit × List Frame × DBState β ρ
| [], st => (Except.ok (), [], st)
| Frame.plain :: rest, st =>
  match aed_frames fs now srcs dsts rest st with
  | (r, rest1, st1) => (r, Frame.plain :: rest1, st1)
| Frame.dbcall l :: rest, st =>
  match aed_add_srcs fs now srcs st l with
  | (Except.error e, l1, st1) => (Except.error e, Frame.dbcall l1 :: rest, st1)
  | (Except.ok _, l1, st1) =>
    let l2 := { l1 with external_dsts := listUnion l1.external_dsts dsts }
    match aed_frames fs now srcs dsts rest st1 with
    | (r, rest1, st2) => (r, Frame.dbcall l2 :: rest1, st2)

/-- add_external_dependencies_to_call: walk the stack starting at frame
index 2, register the given srcs and dsts into every in-flight
Database.call frame found, and return silently once the walk runs off
the top (the ValueError is caught and ignored). -/
def add_external_dependencies_to_call (fs : FS) (now : ℚ) (st : DBState β ρ)
    (stack : List Frame) (srcs dsts : List String) :
    Except Unit Unit × List Frame × DBState β ρ :=
  match aed_frames fs now srcs dsts (stack.drop 2) st with
  | (r, rest1, st1) => (r, stack.take 2 ++ rest1, st1)

end Frontend

section Ops

variable {β ρ : Type} [DecidableEq β]

/-- One backend operation, with the file system snapshot and wall clock
under which it runs. -/
inductive Op (β ρ : Type) : Type
| prep (fs : FS) (now : ℚ) (function_name function_digest : String)
    (bound : β) (srcs dsts : List String)
| store (a : CacheArgs β ρ)
| clearFunction (name : String)
| clearFile (filename : String)

/-- Run one backend operation for its state effect (partial mutations of
a failing prepare or cache are kept, as the exception leaves them). -/
def applyOp (st : DBState β ρ) : Op β ρ → DBState β ρ
| Op.prep fs now fn fd bound srcs dsts =>
    (prepare fs now st fn fd bound srcs dsts).2
| Op.store a => (cache st a).2
| Op.clearFunction name => (clear_function st name).2
| Op.clearFile f => (clear_file st f).2

/-- Run a sequence of backend operations. -/
def runOps (ops : List (Op β ρ)) (st : DBState β ρ) : DBState β ρ :=
  ops.foldl applyOp st

/-- The call_files shape invariant: no empty inner maps at either nested
level. -/
def call_files_wf (st : DBState β ρ) : Prop :=
  ∀ p ∈ st.call_files, p.2 ≠ [] ∧ ∀ q ∈ p.2, q.2 ≠ []

/-- The four tables the query side of the backend never writes. -/
def SameFour (s t : DBState β ρ) : Prop :=
  t.functions = s.functions ∧ t.function_calls = s.function_calls ∧
  t.external_srcs = s.external_srcs ∧ t.external_dsts = s.external_dsts

end Ops

/-! ## Persistence: the pickled snapshot and the atomic write dance -/

/-- The payload pickled by save: the six tables as one tuple, in the
order of the dump call. -/
abbrev SavedTuple (β ρ : Type) :=
  List (String × Digest) × List (String × List (β × ρ)) ×
  List (String × FileEntry) ×
  List (String × List (PyKey × List (PyKey × Digest))) ×
  List (PyKey × List (PyKey × List String)) ×
  List (PyKey × List (PyKey × List String))

/-- The pickler output for a backend state. -/
def serialize {β ρ : Type} (st : DBState β ρ) : SavedTuple β ρ :=
  (st.functions, st.function_calls, st.files, st.call_files,
   st.external_srcs, st.external_dsts)

/-- A value on disk: either a complete pickled snapshot or bytes the
unpickler rejects. -/
inductive DiskVal (β ρ : Type) : Type
| snap (t : SavedTuple β ρ)
| junk

/-- The disk as seen by save and load: a map from paths to values. -/
def Disk (β ρ : Type) := String → Option (DiskVal β ρ)

/-- One file system operation performed by save. -/
inductive FsOp (β ρ : Type) : Type
| write (path : String) (v : DiskVal β ρ)
| rename (src dst : String)
| remove (path : String)

/-- Apply one file system operation to the disk. -/
def applyFsOp {β ρ : Type} (d : Disk β ρ) : FsOp β ρ → Disk β ρ
| FsOp.write p v => fun q => if q = p then some v else d q
| FsOp.rename src dst =>
    fun q => if q = dst then d src else if q = src then Option.none else d q
| FsOp.remove p => fun q => if q = p then Option.none else d q

/-- DatabaseBackend.save: write the complete snapshot to path + ".tmp";
if path exists, rename it to path + ".old"; rename the ".tmp" file to
path; if the ".old" file exists, remove it.  Returns the operations in
the order performed together with the resulting disk. -/
def save {β ρ : Type} (d : Disk β ρ) (path : String) (st : DBState β ρ) :
    List (FsOp β ρ) × Disk β ρ :=
  let tmp := path ++ ".tmp"
  let old := path ++ ".old"
  let v : DiskVal β ρ := DiskVal.snap (serialize st)
  let d1 := applyFsOp d (FsOp.write tmp v)
  let ops2 : List (FsOp β ρ) :=
    if (d1 path).isSome then [FsOp.rename path old] else []
  let d2 := ops2.foldl applyFsOp d1
  let d3 := applyFsOp d2 (FsOp.rename tmp path)
  let ops4 : List (FsOp β ρ) :=
    if (d3 old).isSome then [FsOp.remove old] else []
  let d4 := ops4.foldl applyFsOp d3
  (FsOp.write tmp v :: ops2 ++ FsOp.rename tmp path :: ops4, d4)

/-- DatabaseBackend.load: open the file (a missing path raises), unpickle
(junk raises), and replace the six tables with the tuple members, in the
order of the assignment. -/
def load {β ρ : Type} (d : Disk β ρ) (path : String) :
    Except Unit (DBState β ρ) :=
  match d path with
  | Option.none => Except.error ()
  | some DiskVal.junk => Except.error ()
  | some (DiskVal.snap (a, b, c, e, f, g)) => Except.ok ⟨a, b, c, e, f, g⟩

/-! ## Helper lemmas -/

theorem str_append_ne_self (s t : String) (h : t ≠ "") : s ++ t ≠ s := by
  intro he
  apply h
  have hl := congrArg String.length he
  rw [String.length_append] at hl
  have : t.length = 0 := by omega
  cases t with
  | mk data =>
    cases data with
    | nil => rfl
    | cons c cs => simp [String.length] at this

theorem str_append_right_inj (s t u : String) (h : s ++ t = s ++ u) : t = u := by
  have hd := congrArg String.data h
  rw [String.data_append, String.data_append] at hd
  have h2 := List.append_cancel_left hd
  cases t with
  | mk d1 =>
    cases u with
    | mk d2 => exact congrArg String.mk h2

theorem tmp_ne_path (path : String) : path ++ ".tmp" ≠ path :=
  str_append_ne_self path ".tmp" (by decide)

theorem old_ne_path (path : String) : path ++ ".old" ≠ path :=
  str_append_ne_self path ".old" (by decide)

theorem tmp_ne_old (path : String) : path ++ ".tmp" ≠ path ++ ".old" := by
  intro h
  have := str_append_right_inj path ".tmp" ".old" h
  simp at this

/-- The disk that save leaves behind holds the new snapshot at path. -/
theorem save_disk_at_path {β ρ : Type} (d : Disk β ρ) (path : String)
    (st : DBState β ρ) :
    (save d path st).2 path = some (DiskVal.snap (serialize st)) := by
  have htmp : ¬ path = path ++ ".tmp" := fun hx => tmp_ne_path path hx.symm
  have hold : ¬ path = path ++ ".old" := fun hx => old_ne_path path hx.symm
  have hto : ¬ path ++ ".tmp" = path ++ ".old" := tmp_ne_old path
  have hot : ¬ path ++ ".old" = path ++ ".tmp" := fun hx => tmp_ne_old path hx.symm
  have htp : ¬ path ++ ".tmp" = path := tmp_ne_path path
  have hop : ¬ path ++ ".old" = path := old_ne_path path
  unfold save
  simp only [List.foldl, applyFsOp]
  simp only [htmp, hold, hto, hot, htp, hop, if_false, ite_false, ite_true]
  split <;> split <;>
    simp [List.foldl, applyFsOp, htmp, hold, hto, hot, htp, hop]

/-! ## Claim C4: the save and load round trip -/

/-- Claim C4: for every path and every database state, saving the six
tables to that path and then loading from the same path restores an
equal state: load after save is the identity on the six tables. -/
theorem save_load_roundtrip {β ρ : Type} (d : Disk β ρ) (path : String)
    (st : DBState β ρ) : load (save d path st).2 path = Except.ok st := by
  have h := save_disk_at_path d path st
  unfold load
  rw [h]
  rfl

/-! ## Claim C5: the atomic write dance -/

/-- Claim C5: when the target path exists, save performs exactly the
four operations, in order: write the new snapshot to path + ".tmp",
rename path to path + ".old", rename the ".tmp" file to path, delete
the ".old" file; and across every intermediate disk state the complete
old snapshot or the complete new snapshot is on disk under path,
path + ".old" or path + ".tmp". -/
theorem save_dance {β ρ : Type} (d : Disk β ρ) (path : String)
    (st : DBState β ρ) (v : DiskVal β ρ) (h : d path = some v) :
    (save d path st).1 =
      [FsOp.write (path ++ ".tmp") (DiskVal.snap (serialize st)),
       FsOp.rename path (path ++ ".old"),
       FsOp.rename (path ++ ".tmp") path,
       FsOp.remove (path ++ ".old")] ∧
    ∀ dd ∈ List.scanl applyFsOp d (save d path st).1,
      dd path = some v ∨ dd path = some (DiskVal.snap (serialize st)) ∨
      dd (path ++ ".old") = some v ∨
      dd (path ++ ".old") = some (DiskVal.snap (serialize st)) ∨
      dd (path ++ ".tmp") = some v ∨
      dd (path ++ ".tmp") = some (DiskVal.snap (serialize st)) := by
  have htmp : ¬ path = path ++ ".tmp" := fun hx => tmp_ne_path path hx.symm
  have hold : ¬ path = path ++ ".old" := fun hx => old_ne_path path hx.symm
  have hto : ¬ path ++ ".tmp" = path ++ ".old" := tmp_ne_old path
  have hot : ¬ path ++ ".old" = path ++ ".tmp" := fun hx => tmp_ne_old path hx.symm
  have htp : ¬ path ++ ".tmp" = path := tmp_ne_path path
  have hop : ¬ path ++ ".old" = path := old_ne_path path
  have hops : (save d path st).1 =
      [FsOp.write (path ++ ".tmp") (DiskVal.snap (serialize st)),
       FsOp.rename path (path ++ ".old"),
       FsOp.rename (path ++ ".tmp") path,
       FsOp.remove (path ++ ".old")] := by
    simp [save, applyFsOp, List.foldl, htmp, hold, hto, hot, htp, hop, h]
  refine ⟨hops, ?_⟩
  rw [hops]
  intro dd hdd
  simp only [List.scanl, applyFsOp, List.mem_cons, List.not_mem_nil,
    or_false] at hdd
  rcases hdd with rfl | rfl | rfl | rfl | rfl
  · exact Or.inl h
  · refine Or.inl ?_
    simp [htmp, h]
  · refine Or.inr (Or.inr (Or.inl ?_))
    simp [htmp, hold, hot, hop, h]
  · refine Or.inr (Or.inl ?_)
    simp [htmp, hold, hto, hot, htp, hop]
  · refine Or.inr (Or.inl ?_)
    simp [htmp, hold, hto, hot, htp, hop]

/-- Witness for C5: the dance on a concrete one-file disk. -/
theorem save_dance_witness :
    (save (fun p => if p = "db"
        then some (DiskVal.snap (serialize (dbEmpty String String)))
        else Option.none) "db" (dbEmpty String String)).1 =
      [FsOp.write ("db" ++ ".tmp")
         (DiskVal.snap (serialize (dbEmpty String String))),
       FsOp.rename "db" ("db" ++ ".old"),
       FsOp.rename ("db" ++ ".tmp") "db",
       FsOp.remove ("db" ++ ".old")] :=
  (save_dance _ "db" (dbEmpty String String)
    (DiskVal.snap (serialize (dbEmpty String String))) (by simp)).1

/-! ## Claim C4: the save and load round trip -/

/-! ## Concrete counterexamples and code-bug evidence -/

/-- Counterexample to claim C2 as stated: prepare is not write-free.
Probing the declared src "a" (first sight) inserts a row into the files
table, so the state after prepare differs from the state before. -/
theorem prepare_writes_files_cex :
    (prepare [("a", ⟨3, "x"⟩)] 9 (dbEmpty String String)
      "f" "d" "b" ["a"] []).2.files ≠ (dbEmpty String String).files := by
  decide

/-- Counterexample to claim C3 as stated: at the exact 1.0 second
boundary (wall clock 6, stored and current mtime 5, digests equal), the
stat mtime equals the stored mtime and the wall clock is at least 1.0
second past it, yet the probe rehashes the content (rehashed is true)
instead of short-circuiting, because the source tests strictly more
than 1.0. -/
theorem add_file_boundary_cex :
    (add_file [("a", ⟨5, "c"⟩)] 6
      (⟨[], [], [("a", ⟨5, "c"⟩)], [], [], []⟩ : DBState String String)
      "a").1 = Except.ok ⟨false, ⟨5, "c"⟩, true⟩ ∧ (6 : ℚ) - 5 ≥ 1 := by
  constructor
  · norm_num [add_file, fsFind, dictFind, digestOf]
  · norm_num

/-- Claim C6 evidence: cache one call for function "f" that registered
the external src "h", then clear_function "f".  The functions and
function_calls rows for "f" are gone, but the external tables still
hold the data of "f" (under the swapped keys call_id then name), so a
table does retain data for the cleared function. -/
theorem clear_function_leaves_externals :
    (clear_function
      (cache (dbEmpty String String)
        { function_dirty := true, function_name := "f", function_digest := "d",
          call_id := Option.none, bound := "b", result := "r",
          call_file_digests := [], external_srcs := ["h"], external_dsts := [],
          external_digests := [] }).2 "f").2 =
    { functions := [], function_calls := [], files := [], call_files := [],
      external_srcs := [(PyKey.n 0, [(PyKey.s "f", ["h"])])],
      external_dsts := [(PyKey.n 0, [(PyKey.s "f", [])])] } := by
  rfl

/-- Counterexample to claim C7 as stated: a missing file named by a
declared src-role parameter makes prepare propagate the not-found error
to its caller instead of turning it into dirtiness (the declared-src
loop has no handler). -/
theorem prepare_src_notfound_cex :
    (prepare ([] : FS) 0 (dbEmpty String String)
      "f" "d" "b" ["missing"] []).1 = Except.error () := by
  rfl

/-- Claim C8 evidence: invoked while no in-flight Database.call frame is
on the stack, add_external_dependencies_to_call returns successfully
with the stack and the backend state untouched — a silent no-op, not a
usage error (the ValueError from running off the top of the stack is
caught and ignored; nothing in the function raises otherwise). -/
theorem aed_outside_call_silently_returns :
    add_external_dependencies_to_call ([] : FS) 0 (dbEmpty String String)
      [Frame.plain, Frame.plain, Frame.plain] ["s"] ["d"] =
    (Except.ok (), [Frame.plain, Frame.plain, Frame.plain],
     dbEmpty String String) := by
  rfl

/-- Counterexample to claim C9 as stated: a dirty call whose body
registers no external dependencies at all (the three body lists are
empty) still submits to cache the nonempty external_digests list that
prepare returned (the changed external src "h"): the digests are
carried over from the prepare step, not recomputed by the body. -/
theorem dbCall_carries_prepare_digests_cex :
    ((dbCall [("h", ⟨5, "new"⟩)] 10
      { functions := [("f", "d")], function_calls := [("f", [("b", "r")])],
        files := [("h", ⟨0, "old"⟩)], call_files := [],
        external_srcs := [(PyKey.n 0, [(PyKey.s "f", ["h"])])],
        external_dsts := [] } "f" "d" "b" [] [] Option.none "r2" [] [] []).1.map
      (fun o => (o.ranBody, o.cacheArgs.map (fun a => a.external_digests)))) =
    Except.ok (true, some [("h", "new")]) := by
  rfl


/-! ## General theorems over the backend and the frontend -/

section Theorems

variable {β ρ : Type} [DecidableEq β]

theorem sameFour_trans {s t u : DBState β ρ}
    (h1 : SameFour s t) (h2 : SameFour t u) : SameFour s u :=
  ⟨h2.1.trans h1.1, h2.2.1.trans h1.2.1, h2.2.2.1.trans h1.2.2.1,
   h2.2.2.2.trans h1.2.2.2⟩

theorem add_file_frame (fs : FS) (now : ℚ) (st : DBState β ρ) (f : String) :
    SameFour st (add_file fs now st f).2 := by
  unfold add_file clear_file
  dsimp only
  repeat' split
  all_goals exact ⟨rfl, rfl, rfl, rfl⟩

theorem check_call_file_frame (fs : FS) (now : ℚ) (st : DBState β ρ)
    (ck fk : PyKey) (f : String) :
    SameFour st (check_call_file fs now st ck fk f).2 := by
  unfold check_call_file
  have h := add_file_frame fs now st f
  rcases haf : add_file fs now st f with ⟨r, st1⟩
  rw [haf] at h
  try rw [haf]
  cases r with
  | error e => exact h
  | ok pr =>
    dsimp only
    repeat' split
    all_goals exact h

theorem check_call_files_loop_frame (fs : FS) (now : ℚ) (ck fk : PyKey) :
    ∀ (l : List String) (st : DBState β ρ) (acc : List (String × Digest)),
      SameFour st (check_call_files_loop fs now ck fk l st acc).2 := by
  intro l
  induction l with
  | nil => intro st acc; exact ⟨rfl, rfl, rfl, rfl⟩
  | cons f rest ih =>
    intro st acc
    unfold check_call_files_loop
    have h := check_call_file_frame fs now st ck fk f
    rcases hcf : check_call_file fs now st ck fk f with ⟨r, st1⟩
    rw [hcf] at h
    cases r with
    | error e => exact h
    | ok pr =>
      rcases pr with ⟨d, digest⟩
      exact sameFour_trans h (ih st1 _)

theorem check_external_files_loop_frame (fs : FS) (now : ℚ) (ck fk : PyKey) :
    ∀ (l : List String) (st : DBState β ρ) (b : Bool)
      (acc : List (String × Digest)),
      SameFour st (check_external_files_loop fs now ck fk l st b acc).2 := by
  intro l
  induction l with
  | nil => intro st b acc; exact ⟨rfl, rfl, rfl, rfl⟩
  | cons f rest ih =>
    intro st b acc
    unfold check_external_files_loop
    have h := check_call_file_frame fs now st ck fk f
    rcases hcf : check_call_file fs now st ck fk f with ⟨r, st1⟩
    rw [hcf] at h
    cases r with
    | error e => exact sameFour_trans h (ih st1 _ _)
    | ok pr =>
      rcases pr with ⟨d, digest⟩
      exact sameFour_trans h (ih st1 _ _)

theorem check_external_files_frame (fs : FS) (now : ℚ) (st : DBState β ρ)
    (ck fk : PyKey) :
    SameFour st (check_external_files fs now st ck fk).2 := by
  unfold check_external_files
  dsimp only
  have h := check_external_files_loop_frame fs now ck fk
    (((dictFind st.external_srcs fk).bind (fun m => dictFind m ck)).getD [])
    st false []
  rcases hl : check_external_files_loop fs now ck fk
      (((dictFind st.external_srcs fk).bind (fun m => dictFind m ck)).getD [])
      st false [] with ⟨r, st1⟩
  rw [hl] at h
  try rw [hl]
  rcases r with ⟨dirty, digests⟩
  exact h

/-- Claim C2 amended: prepare returns its 8 values and performs no
writes to functions, function_calls, external_srcs or external_dsts;
the file probes it runs may write only files and call_files.  This
holds for the state prepare leaves behind whether it returns or
raises. -/
theorem prepare_frame (fs : FS) (now : ℚ) (st : DBState β ρ)
    (fn fd : String) (bound : β) (srcs dsts : List String) :
    (prepare fs now st fn fd bound srcs dsts).2.functions = st.functions ∧
    (prepare fs now st fn fd bound srcs dsts).2.function_calls =
      st.function_calls ∧
    (prepare fs now st fn fd bound srcs dsts).2.external_srcs =
      st.external_srcs ∧
    (prepare fs now st fn fd bound srcs dsts).2.external_dsts =
      st.external_dsts := by
  unfold prepare
  dsimp only
  rcases hc : check_call st fn bound with ⟨call_id, old_result⟩
  dsimp only
  have h1 : SameFour st (check_call_files fs now st call_id fn srcs).2 :=
    check_call_files_loop_frame fs now _ _ srcs st []
  rcases hcf : check_call_files fs now st call_id fn srcs with ⟨r, st1⟩
  rw [hcf] at h1
  try rw [hcf]
  cases r with
  | error e => exact h1
  | ok cfd =>
    dsimp only
    have h2 := check_external_files_frame fs now st1
      (PyKey.s fn) (PyKey.ofCallId call_id)
    rcases hce : check_external_files fs now st1 (PyKey.s fn)
        (PyKey.ofCallId call_id) with ⟨rr, st2⟩
    rw [hce] at h2
    try rw [hce]
    rcases rr with ⟨ed, es, eds, edg⟩
    exact sameFour_trans h1 h2

theorem add_file_error_iff (fs : FS) (now : ℚ) (st : DBState β ρ) (f : String) :
    (add_file fs now st f).1 = Except.error () ↔ fsFind fs f = Option.none := by
  unfold add_file
  cases hfs : fsFind fs f with
  | none => simp
  | some file =>
    simp only
    constructor
    · intro h
      split at h
      · exact absurd h (by simp)
      · split at h
        · exact absurd h (by simp)
        · split at h
          · exact absurd h (by simp)
          · exact absurd h (by simp)
    · intro h
      exact absurd h (by simp)

theorem check_call_file_error_iff (fs : FS) (now : ℚ) (st : DBState β ρ)
    (ck fk : PyKey) (f : String) :
    (check_call_file fs now st ck fk f).1 = Except.error () ↔
      fsFind fs f = Option.none := by
  unfold check_call_file
  have h := add_file_error_iff fs now st f
  rcases haf : add_file fs now st f with ⟨r, st1⟩
  rw [haf] at h
  cases r with
  | error e =>
    cases e
    simpa using h
  | ok pr =>
    simp only at h
    constructor
    · intro hx
      dsimp only at hx
      split at hx
      · exact absurd hx (by simp)
      · split at hx
        · exact absurd hx (by simp)
        · split at hx
          · exact absurd hx (by simp)
          · split at hx
            · exact absurd hx (by simp)
            · exact absurd hx (by simp)
    · intro hx
      rw [← h] at hx
      exact absurd hx (by simp)

theorem check_call_files_loop_error_iff (fs : FS) (now : ℚ) (ck fk : PyKey) :
    ∀ (l : List String) (st : DBState β ρ) (acc : List (String × Digest)),
      ((check_call_files_loop fs now ck fk l st acc).1 = Except.error () ↔
        ∃ s ∈ l, fsFind fs s = Option.none) := by
  intro l
  induction l with
  | nil => intro st acc; simp [check_call_files_loop]
  | cons f rest ih =>
    intro st acc
    unfold check_call_files_loop
    have he := check_call_file_error_iff fs now st ck fk f
    rcases hcf : check_call_file fs now st ck fk f with ⟨r, st1⟩
    rw [hcf] at he
    cases r with
    | error e =>
      cases e
      simp only at he
      simp only [List.mem_cons]
      constructor
      · intro _
        exact ⟨f, Or.inl rfl, he.mp trivial⟩
      · intro _
        trivial
    | ok pr =>
      rcases pr with ⟨d, digest⟩
      rw [ih st1 _]
      simp only at he
      have hf : ¬ fsFind fs f = Option.none := fun hx => by
        have := he.mpr hx
        exact absurd this (by simp)
      constructor
      · rintro ⟨s, hs, hmiss⟩
        exact ⟨s, List.mem_cons_of_mem f hs, hmiss⟩
      · rintro ⟨s, hs, hmiss⟩
        rcases List.mem_cons.mp hs with rfl | hs2
        · exact absurd hmiss hf
        · exact ⟨s, hs2, hmiss⟩

theorem check_external_files_loop_dirty (fs : FS) (now : ℚ) (ck fk : PyKey) :
    ∀ (l : List String) (st : DBState β ρ) (b : Bool)
      (acc : List (String × Digest)),
      (check_external_files_loop fs now ck fk l st b acc).1.1 =
        (b || l.any (fun s => (fsFind fs s).isNone)) := by
  intro l
  induction l with
  | nil => intro st b acc; simp [check_external_files_loop]
  | cons f rest ih =>
    intro st b acc
    unfold check_external_files_loop
    have he := check_call_file_error_iff fs now st ck fk f
    rcases hcf : check_call_file fs now st ck fk f with ⟨r, st1⟩
    rw [hcf] at he
    cases r with
    | error e =>
      cases e
      simp only at he
      have hmiss : fsFind fs f = Option.none := he.mp trivial
      rw [ih st1 true _]
      simp [hmiss]
    | ok pr =>
      rcases pr with ⟨d, digest⟩
      simp only at he
      have hf : ¬ fsFind fs f = Option.none := fun hx => by
        have := he.mpr hx
        exact absurd this (by simp)
      rw [ih st1 b _]
      have : (fsFind fs f).isNone = false := by
        cases hfs : fsFind fs f with
        | none => exact absurd hfs hf
        | some v => rfl
      simp [this]

theorem check_external_files_dirty (fs : FS) (now : ℚ) (st : DBState β ρ)
    (ck fk : PyKey) :
    (check_external_files fs now st ck fk).1.1 =
      ((check_external_files fs now st ck fk).1.2.1).any
        (fun s => (fsFind fs s).isNone) := by
  unfold check_external_files
  dsimp only
  have hl := check_external_files_loop_dirty fs now ck fk
    (((dictFind st.external_srcs fk).bind (fun m => dictFind m ck)).getD [])
    st false []
  rcases hcl : check_external_files_loop fs now ck fk
      (((dictFind st.external_srcs fk).bind (fun m => dictFind m ck)).getD [])
      st false [] with ⟨⟨dirty, digests⟩, st1⟩
  rw [hcl] at hl
  simpa using hl

/-- Claim C7 amended: a not-found error on a previously recorded
external src is translated into external dirtiness for the owning call
(prepare succeeds, and external_dirty is set exactly when one of the
external srcs is missing on disk), while a not-found error on a file
named by a declared src-role parameter propagates out of prepare (it
raises exactly when some declared src is missing on disk). -/
theorem prepare_file_not_found (fs : FS) (now : ℚ) (st : DBState β ρ)
    (fn fd : String) (bound : β) (srcs dsts : List String) :
    ((prepare fs now st fn fd bound srcs dsts).1 = Except.error () ↔
      ∃ s ∈ srcs, fsFind fs s = Option.none) ∧
    ∀ t, (prepare fs now st fn fd bound srcs dsts).1 = Except.ok t →
      t.external_dirty = t.external_srcs.any (fun s => (fsFind fs s).isNone) := by
  unfold prepare
  dsimp only
  rcases hc : check_call st fn bound with ⟨call_id, old_result⟩
  dsimp only
  have herr : ((check_call_files fs now st call_id fn srcs).1 =
      Except.error () ↔ ∃ s ∈ srcs, fsFind fs s = Option.none) :=
    check_call_files_loop_error_iff fs now _ _ srcs st []
  rcases hcf : check_call_files fs now st call_id fn srcs with ⟨r, st1⟩
  rw [hcf] at herr
  cases r with
  | error e =>
    cases e
    constructor
    · simpa using herr
    · intro t ht
      exact absurd ht (by simp)
  | ok cfd =>
    dsimp only
    have hd := check_external_files_dirty fs now st1
      (PyKey.s fn) (PyKey.ofCallId call_id)
    rcases hce : check_external_files fs now st1 (PyKey.s fn)
        (PyKey.ofCallId call_id) with ⟨⟨ed, es, eds, edg⟩, st2⟩
    rw [hce] at hd
    simp only at herr hd
    constructor
    · simp only []
      constructor
      · intro hx
        exact absurd hx (by simp)
      · intro hx
        exact absurd (herr.mpr hx) (by simp)
    · intro t ht
      have : t = ⟨check_function st fn fd, call_id, old_result, cfd,
          ed, es, eds, edg⟩ := by
        have := Except.ok.inj ht
        exact this.symm
      subst this
      simpa using hd

/-- Claim C3 amended: for every filename present on disk, the probe on
first sight stores (mtime, digest of the content) and reports changed;
on re-sight it reports unchanged without rehashing exactly when the
stat mtime equals the stored mtime and the wall clock is strictly more
than 1.0 second past that mtime; otherwise it rehashes and, if the
digest equals the stored digest, refreshes the stored mtime (keeping
the stored digest) and reports unchanged, while if the digest differs
it clears the file, stores the new (mtime, digest) entry, and reports
changed. -/
theorem add_file_spec (fs : FS) (now : ℚ) (st : DBState β ρ)
    (filename : String) (file : FSFile)
    (hfs : fsFind fs filename = some file) :
    (dictFind st.files filename = Option.none →
      add_file fs now st filename =
        (Except.ok ⟨true, ⟨file.mtime, digestOf file.content⟩, true⟩,
         { st with files := dictSet st.files filename ⟨file.mtime, digestOf file.content⟩ })) ∧
    ∀ old, dictFind st.files filename = some old →
      ((add_file fs now st filename = (Except.ok ⟨false, old, false⟩, st)) ↔
        (file.mtime = old.mtime ∧ now - file.mtime > 1)) ∧
      (¬ (file.mtime = old.mtime ∧ now - file.mtime > 1) →
        digestOf file.content = old.digest →
        add_file fs now st filename =
          (Except.ok ⟨false, old, true⟩,
           { st with files := dictSet st.files filename ⟨file.mtime, old.digest⟩ })) ∧
      (¬ (file.mtime = old.mtime ∧ now - file.mtime > 1) →
        ¬ digestOf file.content = old.digest →
        add_file fs now st filename =
          (Except.ok ⟨true, ⟨file.mtime, digestOf file.content⟩, true⟩,
           { (clear_file st filename).2 with files := dictSet (clear_file st filename).2.files filename ⟨file.mtime, digestOf file.content⟩ })) := by
  constructor
  · intro h0
    simp only [add_file, hfs, h0]
  · intro old hold
    by_cases hcond : file.mtime = old.mtime ∧ now - file.mtime > 1
    · refine ⟨?_, ?_, ?_⟩
      · simp only [add_file, hfs, hold]
        rw [if_pos hcond]
        exact iff_of_true rfl hcond
      · intro hx
        exact absurd hcond hx
      · intro hx
        exact absurd hcond hx
    · refine ⟨?_, ?_, ?_⟩
      · simp only [add_file, hfs, hold]
        rw [if_neg hcond]
        refine iff_of_false ?_ hcond
        by_cases hdig : digestOf file.content = old.digest
        · rw [if_pos hdig]
          intro heq
          have h1 := congrArg (fun p => p.1) heq
          simp at h1
        · rw [if_neg hdig]
          intro heq
          have h1 := congrArg (fun p => p.1) heq
          simp at h1
      · intro _ hdig
        simp only [add_file, hfs, hold]
        rw [if_neg hcond, if_pos hdig]
      · intro _ hdig
        simp only [add_file, hfs, hold]
        rw [if_neg hcond, if_neg hdig]

theorem clean_cond_iff (t : PrepareRes ρ) (L : List String) (fs : FS) :
    ((!(t.function_dirty || t.call_id.isNone || !t.call_file_digests.isEmpty ||
       !t.external_digests.isEmpty || t.external_dirty) &&
      L.all (fun d => (fsFind fs d).isSome)) = true) ↔
    (t.function_dirty = false ∧ t.call_id ≠ Option.none ∧
     t.call_file_digests = [] ∧ t.external_digests = [] ∧
     t.external_dirty = false ∧ ∀ d ∈ L, (fsFind fs d).isSome = true) := by
  simp [Bool.and_eq_true, Bool.not_eq_true', Bool.or_eq_false_iff,
    List.all_eq_true, Option.isNone_eq_false_iff, List.isEmpty_iff,
    Option.ne_none_iff_isSome, and_assoc]

/-- Claim C1: when prepare returns its tuple, Database.call returns the
cached result without executing the user function exactly when
function_dirty is false, call_id is not none, call_file_digests is
empty, external_digests is empty, external_dirty is false, and every
return-value dst, declared dst and previously recorded external dst
exists on disk; when any condition fails, the body runs and its result
is returned. -/
theorem dbCall_clean_iff (fs : FS) (now : ℚ) (st : DBState β ρ)
    (fn fd : String) (bound : β) (srcs dsts : List String)
    (rconv : Option (ρ → List String)) (bres : ρ)
    (bsrcs bdsts : List String) (bdigs : List (String × Digest))
    (t : PrepareRes ρ) (o : CallOutcome β ρ)
    (hp : (prepare fs now st fn fd bound srcs dsts).1 = Except.ok t)
    (ho : (dbCall fs now st fn fd bound srcs dsts rconv bres bsrcs bdsts
      bdigs).1 = Except.ok o) :
    (o.ranBody = false ↔
      (t.function_dirty = false ∧ t.call_id ≠ Option.none ∧
       t.call_file_digests = [] ∧ t.external_digests = [] ∧
       t.external_dirty = false ∧
       ∀ d ∈ dbReturnDsts rconv t.old_result ++ dsts ++ t.external_dsts,
         (fsFind fs d).isSome = true)) ∧
    (o.ranBody = false → o.result = t.old_result) ∧
    (o.ranBody = true → o.result = some bres) := by
  unfold dbCall at ho
  rcases hq : prepare fs now st fn fd bound srcs dsts with ⟨r, st1⟩
  rw [hq] at hp ho
  simp only at hp
  subst hp
  dsimp only at ho
  by_cases hclean : (!(t.function_dirty || t.call_id.isNone ||
      !t.call_file_digests.isEmpty || !t.external_digests.isEmpty ||
      t.external_dirty) &&
    (dbReturnDsts rconv t.old_result ++ dsts ++ t.external_dsts).all
      (fun d => (fsFind fs d).isSome)) = true
  · rw [if_pos hclean] at ho
    have ho2 := Except.ok.inj ho
    subst ho2
    refine ⟨?_, ?_, ?_⟩
    · exact iff_of_true rfl ((clean_cond_iff t _ fs).mp hclean)
    · intro _
      rfl
    · intro hx
      exact absurd hx (by simp)
  · rw [if_neg hclean] at ho
    rcases hcc : cache st1
        { function_dirty := t.function_dirty, function_name := fn,
          function_digest := fd, call_id := t.call_id, bound := bound,
          result := bres, call_file_digests := t.call_file_digests,
          external_srcs := bsrcs, external_dsts := bdsts,
          external_digests := t.external_digests ++ bdigs } with ⟨cr, st2⟩
    rw [hcc] at ho
    cases cr with
    | error e => exact absurd ho (by simp)
    | ok u =>
      dsimp only at ho
      have ho2 := Except.ok.inj ho
      subst ho2
      refine ⟨?_, ?_, ?_⟩
      · refine iff_of_false (by simp) ?_
        intro hrhs
        exact hclean ((clean_cond_iff t _ fs).mpr hrhs)
      · intro hx
        exact absurd hx (by simp)
      · intro _
        rfl

/-- Claim C9 amended: a dirty call runs the body with external_srcs and
external_dsts rebound to fresh empty sets, so the cache submission
carries exactly the external srcs and dsts the body registered; the
external_digests submitted are the list prepare returned with the
digests registered by the body appended — they are not reset. -/
theorem dbCall_cache_externals (fs : FS) (now : ℚ) (st : DBState β ρ)
    (fn fd : String) (bound : β) (srcs dsts : List String)
    (rconv : Option (ρ → List String)) (bres : ρ)
    (bsrcs bdsts : List String) (bdigs : List (String × Digest))
    (t : PrepareRes ρ) (o : CallOutcome β ρ)
    (hp : (prepare fs now st fn fd bound srcs dsts).1 = Except.ok t)
    (ho : (dbCall fs now st fn fd bound srcs dsts rconv bres bsrcs bdsts
      bdigs).1 = Except.ok o)
    (hr : o.ranBody = true) :
    o.cacheArgs = some
      { function_dirty := t.function_dirty, function_name := fn,
        function_digest := fd, call_id := t.call_id, bound := bound,
        result := bres, call_file_digests := t.call_file_digests,
        external_srcs := bsrcs, external_dsts := bdsts,
        external_digests := t.external_digests ++ bdigs } := by
  unfold dbCall at ho
  rcases hq : prepare fs now st fn fd bound srcs dsts with ⟨r, st1⟩
  rw [hq] at hp ho
  simp only at hp
  subst hp
  dsimp only at ho
  by_cases hclean : (!(t.function_dirty || t.call_id.isNone ||
      !t.call_file_digests.isEmpty || !t.external_digests.isEmpty ||
      t.external_dirty) &&
    (dbReturnDsts rconv t.old_result ++ dsts ++ t.external_dsts).all
      (fun d => (fsFind fs d).isSome)) = true
  · rw [if_pos hclean] at ho
    have ho2 := Except.ok.inj ho
    subst ho2
    exact absurd hr (by simp)
  · rw [if_neg hclean] at ho
    rcases hcc : cache st1
        { function_dirty := t.function_dirty, function_name := fn,
          function_digest := fd, call_id := t.call_id, bound := bound,
          result := bres, call_file_digests := t.call_file_digests,
          external_srcs := bsrcs, external_dsts := bdsts,
          external_digests := t.external_digests ++ bdigs } with ⟨cr, st2⟩
    rw [hcc] at ho
    cases cr with
    | error e => exact absurd ho (by simp)
    | ok u =>
      dsimp only at ho
      have ho2 := Except.ok.inj ho
      subst ho2
      rfl

/-- Witness for C1: at a concrete empty-database input the hypotheses
hold and the call is dirty (unknown function), so the body ran. -/
theorem dbCall_clean_iff_witness :
    ({ result := some "r", all_srcs := [], all_dsts := [], ranBody := true,
       cacheArgs := some { function_dirty := true, function_name := "f",
                           function_digest := "d", call_id := Option.none,
                           bound := "b", result := "r",
                           call_file_digests := [], external_srcs := [],
                           external_dsts := [],
                           external_digests := [] } } :
      CallOutcome String String).ranBody = true := by
  have h := (dbCall_clean_iff ([] : FS) 0 (dbEmpty String String) "f" "d" "b"
    [] [] Option.none "r" [] [] []
    ⟨true, Option.none, Option.none, [], false, [], [], []⟩
    { result := some "r", all_srcs := [], all_dsts := [], ranBody := true,
      cacheArgs := some { function_dirty := true, function_name := "f",
                          function_digest := "d", call_id := Option.none,
                          bound := "b", result := "r",
                          call_file_digests := [], external_srcs := [],
                          external_dsts := [],
                          external_digests := [] } } rfl rfl).1
  cases hrb : ({ result := some "r", all_srcs := [], all_dsts := [],
                 ranBody := true,
                 cacheArgs := some { function_dirty := true,
                                     function_name := "f",
                                     function_digest := "d",
                                     call_id := Option.none, bound := "b",
                                     result := "r", call_file_digests := [],
                                     external_srcs := [], external_dsts := [],
                                     external_digests := [] } } :
      CallOutcome String String).ranBody with
  | false =>
    rw [hrb] at h
    have h2 := h.mp rfl
    exact absurd h2.1 (by simp)
  | true => rfl

/-- Witness for C3: the first-sight case of the probe at a concrete
input. -/
theorem add_file_spec_witness :
    add_file [("a", ⟨0, "c"⟩)] 5 (dbEmpty String String) "a" =
      (Except.ok ⟨true, ⟨0, "c"⟩, true⟩,
       { dbEmpty String String with files := dictSet (dbEmpty String String).files "a" ⟨(0 : ℚ), "c"⟩ }) :=
  (add_file_spec [("a", ⟨0, "c"⟩)] 5 (dbEmpty String String) "a"
    ⟨0, "c"⟩ rfl).1 rfl

/-- Witness for C7: at a concrete state whose recorded external src is
missing on disk, prepare succeeded and reported external dirtiness. -/
theorem prepare_file_not_found_witness :
    (⟨false, some 0, some "r", [], true, ["h"], [], []⟩ :
      PrepareRes String).external_dirty =
    (["h"] : List String).any (fun s => (fsFind ([] : FS) s).isNone) :=
  (prepare_file_not_found ([] : FS) 0
    ({ functions := [("f", "d")], function_calls := [("f", [("b", "r")])],
       files := [], call_files := [],
       external_srcs := [(PyKey.n 0, [(PyKey.s "f", ["h"])])],
       external_dsts := [] } : DBState String String) "f" "d" "b" [] []).2
    ⟨false, some 0, some "r", [], true, ["h"], [], []⟩ rfl

/-- Witness for C9: at a concrete dirty call whose body registered
nothing, the cache submission carries exactly the digests prepare
returned. -/
theorem dbCall_cache_externals_witness :
    ({ result := some "r2", all_srcs := [], all_dsts := [], ranBody := true,
       cacheArgs := some { function_dirty := false, function_name := "f",
                           function_digest := "d", call_id := some 0,
                           bound := "b", result := "r2",
                           call_file_digests := [], external_srcs := [],
                           external_dsts := [],
                           external_digests := [("h", "new")] } } :
      CallOutcome String String).cacheArgs = some
      { function_dirty := false, function_name := "f", function_digest := "d",
        call_id := some 0, bound := "b", result := "r2",
        call_file_digests := [], external_srcs := [], external_dsts := [],
        external_digests := [("h", "new")] ++ [] } :=
  dbCall_cache_externals [("h", ⟨5, "new"⟩)] 10
    { functions := [("f", "d")], function_calls := [("f", [("b", "r")])],
      files := [("h", ⟨0, "old"⟩)], call_files := [],
      external_srcs := [(PyKey.n 0, [(PyKey.s "f", ["h"])])],
      external_dsts := [] } "f" "d" "b" [] [] Option.none "r2" [] [] []
    ⟨false, some 0, some "r", [], false, ["h"], [], [("h", "new")]⟩
    { result := some "r2", all_srcs := [], all_dsts := [], ranBody := true,
      cacheArgs := some { function_dirty := false, function_name := "f",
                          function_digest := "d", call_id := some 0,
                          bound := "b", result := "r2",
                          call_file_digests := [], external_srcs := [],
                          external_dsts := [],
                          external_digests := [("h", "new")] } }
    rfl rfl rfl

theorem dictErase_subset {α γ : Type} [DecidableEq α]
    (l : List (α × γ)) (k : α) :
    ∀ p ∈ dictErase l k, p ∈ l := by
  induction l with
  | nil => intro p hp; exact absurd hp (by simp [dictErase])
  | cons kv rest ih =>
    intro p hp
    rcases kv with ⟨k0, v0⟩
    unfold dictErase at hp
    split at hp
    · exact List.mem_cons_of_mem _ hp
    · rcases List.mem_cons.mp hp with rfl | hp2
      · exact List.mem_cons_self _ _
      · exact List.mem_cons_of_mem _ (ih p hp2)

theorem dictSet_ne_nil {α γ : Type} [DecidableEq α]
    (l : List (α × γ)) (k : α) (v : γ) : dictSet l k v ≠ [] := by
  cases l with
  | nil => simp [dictSet]
  | cons kv rest =>
    rcases kv with ⟨k0, v0⟩
    unfold dictSet
    split <;> simp

theorem dictModify_ne_nil {α γ : Type} [DecidableEq α]
    (l : List (α × γ)) (k : α) (d : γ) (f : γ → γ) :
    dictModify l k d f ≠ [] := by
  cases l with
  | nil => simp [dictModify]
  | cons kv rest =>
    rcases kv with ⟨k0, v0⟩
    unfold dictModify
    split <;> simp

theorem dictModify_mem {α γ : Type} [DecidableEq α]
    (l : List (α × γ)) (k : α) (d : γ) (f : γ → γ) :
    ∀ p ∈ dictModify l k d f,
      p.2 = f d ∨ (∃ q ∈ l, p.2 = f q.2) ∨ p ∈ l := by
  induction l with
  | nil =>
    intro p hp
    simp [dictModify] at hp
    subst hp
    exact Or.inl rfl
  | cons kv rest ih =>
    intro p hp
    rcases kv with ⟨k0, v0⟩
    unfold dictModify at hp
    split at hp
    · rcases List.mem_cons.mp hp with rfl | hp2
      · exact Or.inr (Or.inl ⟨(k0, v0), List.mem_cons_self _ _, rfl⟩)
      · exact Or.inr (Or.inr (List.mem_cons_of_mem _ hp2))
    · rcases List.mem_cons.mp hp with rfl | hp2
      · exact Or.inr (Or.inr (List.mem_cons_self _ _))
      · rcases ih p hp2 with h1 | ⟨q, hq, hq2⟩ | h3
        · exact Or.inl h1
        · exact Or.inr (Or.inl ⟨q, List.mem_cons_of_mem _ hq, hq2⟩)
        · exact Or.inr (Or.inr (List.mem_cons_of_mem _ h3))

theorem wf_clear_file (st : DBState β ρ) (f : String)
    (h : call_files_wf st) : call_files_wf (clear_file st f).2 := by
  intro p hp
  exact h p (dictErase_subset st.call_files f p hp)

theorem wf_clear_function (st : DBState β ρ) (name : String)
    (h : call_files_wf st) : call_files_wf (clear_function st name).2 := by
  intro p hp
  unfold clear_function at hp
  dsimp only at hp
  rw [List.mem_filter] at hp
  rcases hp with ⟨hmem, hne⟩
  rw [List.mem_map] at hmem
  rcases hmem with ⟨q, hq, rfl⟩
  constructor
  · simpa using hne
  · intro r hr
    exact (h q hq).2 r (dictErase_subset q.2 (PyKey.s name) r hr)

theorem wf_update_call_file (st : DBState β ρ) (ck fk : PyKey)
    (f : String) (dg : Digest) (h : call_files_wf st) :
    call_files_wf (update_call_file st ck fk f dg) := by
  intro p hp
  unfold update_call_file at hp
  dsimp only at hp
  have hinner : ∀ (m : List (PyKey × List (PyKey × Digest))),
      (m ≠ [] ∧ ∀ q ∈ m, q.2 ≠ []) →
      (dictModify m fk [] (fun m2 => dictSet m2 ck dg) ≠ [] ∧
        ∀ q ∈ dictModify m fk [] (fun m2 => dictSet m2 ck dg), q.2 ≠ []) := by
    intro m hm
    refine ⟨dictModify_ne_nil m fk [] _, ?_⟩
    intro q hq
    rcases dictModify_mem m fk [] _ q hq with h1 | ⟨r, _, hr2⟩ | h3
    · rw [h1]
      exact dictSet_ne_nil [] ck dg
    · rw [hr2]
      exact dictSet_ne_nil r.2 ck dg
    · exact hm.2 q h3
  rcases dictModify_mem st.call_files f []
      (fun datas => dictModify datas fk [] (fun m => dictSet m ck dg))
      p hp with h1 | ⟨q, hq, hq2⟩ | h3
  · rw [h1]
    refine ⟨dictModify_ne_nil [] fk [] _, ?_⟩
    intro q hq
    rcases dictModify_mem [] fk [] _ q hq with ha | ⟨r, hr, _⟩ | hc
    · rw [ha]
      exact dictSet_ne_nil [] ck dg
    · exact absurd hr (by simp)
    · exact absurd hc (by simp)
  · rw [hq2]
    exact hinner q.2 (h q hq)
  · exact h p h3

theorem wf_add_file (fs : FS) (now : ℚ) (st : DBState β ρ) (f : String)
    (h : call_files_wf st) : call_files_wf (add_file fs now st f).2 := by
  have hcf : (add_file fs now st f).2.call_files = st.call_files ∨
      (add_file fs now st f).2.call_files = (clear_file st f).2.call_files := by
    unfold add_file clear_file
    dsimp only
    repeat' split
    · exact Or.inl rfl
    · exact Or.inl rfl
    · exact Or.inl rfl
    · exact Or.inl rfl
    · exact Or.inr rfl
  intro p hp
  rcases hcf with he | he
  · rw [he] at hp
    exact h p hp
  · rw [he] at hp
    exact wf_clear_file st f h p hp

theorem wf_check_call_file (fs : FS) (now : ℚ) (st : DBState β ρ)
    (ck fk : PyKey) (f : String) (h : call_files_wf st) :
    call_files_wf (check_call_file fs now st ck fk f).2 := by
  have haf := wf_add_file fs now st f h
  unfold check_call_file
  rcases hf : add_file fs now st f with ⟨r, st1⟩
  rw [hf] at haf
  cases r with
  | error e => exact haf
  | ok pr =>
    dsimp only
    repeat' split
    all_goals exact haf

theorem wf_check_call_files_loop (fs : FS) (now : ℚ) (ck fk : PyKey) :
    ∀ (l : List String) (st : DBState β ρ) (acc : List (String × Digest)),
      call_files_wf st →
      call_files_wf (check_call_files_loop fs now ck fk l st acc).2 := by
  intro l
  induction l with
  | nil => intro st acc h; exact h
  | cons f rest ih =>
    intro st acc h
    unfold check_call_files_loop
    have hcf := wf_check_call_file fs now st ck fk f h
    rcases hf : check_call_file fs now st ck fk f with ⟨r, st1⟩
    rw [hf] at hcf
    cases r with
    | error e => exact hcf
    | ok pr =>
      rcases pr with ⟨d, dg⟩
      exact ih st1 _ hcf

theorem wf_check_external_files_loop (fs : FS) (now : ℚ) (ck fk : PyKey) :
    ∀ (l : List String) (st : DBState β ρ) (b : Bool)
      (acc : List (String × Digest)),
      call_files_wf st →
      call_files_wf (check_external_files_loop fs now ck fk l st b acc).2 := by
  intro l
  induction l with
  | nil => intro st b acc h; exact h
  | cons f rest ih =>
    intro st b acc h
    unfold check_external_files_loop
    have hcf := wf_check_call_file fs now st ck fk f h
    rcases hf : check_call_file fs now st ck fk f with ⟨r, st1⟩
    rw [hf] at hcf
    cases r with
    | error e => exact ih st1 _ _ hcf
    | ok pr =>
      rcases pr with ⟨d, dg⟩
      exact ih st1 _ _ hcf

theorem wf_prepare (fs : FS) (now : ℚ) (st : DBState β ρ) (fn fd : String)
    (bound : β) (srcs dsts : List String) (h : call_files_wf st) :
    call_files_wf (prepare fs now st fn fd bound srcs dsts).2 := by
  unfold prepare
  dsimp only
  rcases hc : check_call st fn bound with ⟨call_id, old_result⟩
  dsimp only
  have h1 : call_files_wf (check_call_files fs now st call_id fn srcs).2 :=
    wf_check_call_files_loop fs now _ _ srcs st [] h
  rcases hcf : check_call_files fs now st call_id fn srcs with ⟨r, st1⟩
  rw [hcf] at h1
  cases r with
  | error e => exact h1
  | ok cfd =>
    dsimp only
    have h2 : call_files_wf (check_external_files fs now st1 (PyKey.s fn)
        (PyKey.ofCallId call_id)).2 := by
      unfold check_external_files
      dsimp only
      have h3 := wf_check_external_files_loop fs now (PyKey.s fn)
        (PyKey.ofCallId call_id)
        (((dictFind st1.external_srcs (PyKey.ofCallId call_id)).bind
          (fun m => dictFind m (PyKey.s fn))).getD []) st1 false [] h1
      rcases hl : check_external_files_loop fs now (PyKey.s fn)
          (PyKey.ofCallId call_id)
          (((dictFind st1.external_srcs (PyKey.ofCallId call_id)).bind
            (fun m => dictFind m (PyKey.s fn))).getD []) st1 false []
        with ⟨⟨dirty, digests⟩, st2⟩
      rw [hl] at h3
      exact h3
    rcases hce : check_external_files fs now st1 (PyKey.s fn)
        (PyKey.ofCallId call_id) with ⟨⟨ed, es, eds, edg⟩, st2⟩
    rw [hce] at h2
    exact h2

theorem wf_update_function (st : DBState β ρ) (fn : String) (dg : Digest)
    (h : call_files_wf st) : call_files_wf (update_function st fn dg) := by
  unfold update_function
  dsimp only
  exact wf_clear_function st fn h

theorem update_call_call_files (st : DBState β ρ) (fn : String)
    (call_id : Option Nat) (bound : β) (result : ρ) :
    ∀ i st1, update_call st fn call_id bound result = Except.ok (i, st1) →
      st1.call_files = st.call_files := by
  intro i st1 hu
  unfold update_call at hu
  split at hu
  · have hh := Except.ok.inj hu
    injection hh with h1 h2
    subst h2
    rfl
  · split at hu
    · have hh := Except.ok.inj hu
      injection hh with h1 h2
      subst h2
      rfl
    · split at hu
      · have hh := Except.ok.inj hu
        injection hh with h1 h2
        subst h2
        rfl
      · exact absurd hu (by simp)

theorem wf_update_call_files (ck fk : PyKey) :
    ∀ (digests : List (String × Digest)) (st : DBState β ρ),
      call_files_wf st →
      call_files_wf (update_call_files st ck fk digests) := by
  intro digests
  induction digests with
  | nil => intro st h; exact h
  | cons p rest ih =>
    intro st h
    unfold update_call_files
    rw [List.foldl_cons]
    exact ih (update_call_file st ck fk p.1 p.2)
      (wf_update_call_file st ck fk p.1 p.2 h)

theorem wf_update_external_files (st : DBState β ρ) (ck fk : PyKey)
    (srcs dsts : List String) (digests : List (String × Digest))
    (h : call_files_wf st) :
    call_files_wf (update_external_files st ck fk srcs dsts digests) := by
  unfold update_external_files
  dsimp only
  refine wf_update_call_files ck fk digests _ ?_
  intro p hp
  exact h p hp

theorem wf_cache (st : DBState β ρ) (a : CacheArgs β ρ)
    (h : call_files_wf st) : call_files_wf (cache st a).2 := by
  unfold cache
  dsimp only
  have h1 : call_files_wf (if a.function_dirty then
      update_function st a.function_name a.function_digest else st) := by
    split
    · exact wf_update_function st a.function_name a.function_digest h
    · exact h
  rcases hu : update_call (if a.function_dirty then
      update_function st a.function_name a.function_digest else st)
      a.function_name a.call_id a.bound a.result with e | ⟨i, st2⟩
  · exact h1
  · have h2 : st2.call_files = (if a.function_dirty then
        update_function st a.function_name a.function_digest
        else st).call_files :=
      update_call_call_files _ _ _ _ _ i st2 hu
    have h3 : call_files_wf st2 := by
      intro p hp
      rw [h2] at hp
      exact h1 p hp
    have h4 := wf_update_call_files (PyKey.n i) (PyKey.s a.function_name)
      a.call_file_digests st2 h3
    exact wf_update_external_files _ (PyKey.s a.function_name) (PyKey.n i)
      a.external_srcs a.external_dsts a.external_digests h4

theorem wf_applyOp (st : DBState β ρ) (op : Op β ρ)
    (h : call_files_wf st) : call_files_wf (applyOp st op) := by
  cases op with
  | prep fs now fn fd bound srcs dsts => exact wf_prepare fs now st fn fd bound srcs dsts h
  | store a => exact wf_cache st a h
  | clearFunction name => exact wf_clear_function st name h
  | clearFile f => exact wf_clear_file st f h

/-- Claim C10: starting from the empty backend, after any sequence of
backend operations (prepare, cache, clear_function, clear_file) the
call_files table contains no empty inner maps at either nested level;
in particular clear_function prunes filename keys whose per-function
map became empty. -/
theorem call_files_wf_runOps (ops : List (Op β ρ)) :
    call_files_wf (runOps ops (dbEmpty β ρ)) := by
  have hgen : ∀ (l : List (Op β ρ)) (st : DBState β ρ), call_files_wf st →
      call_files_wf (runOps l st) := by
    intro l
    induction l with
    | nil => intro st h; exact h
    | cons op rest ih =>
      intro st h
      unfold runOps
      rw [List.foldl_cons]
      exact ih (applyOp st op) (wf_applyOp st op h)
  refine hgen ops (dbEmpty β ρ) ?_
  intro p hp
  exact absurd hp (by simp [dbEmpty])

end Theorems

end Fbuild
